import Mathlib

/-!
Verification of the user-account core of the hiring-exercise repository.

The authoritative source is `src/backend/src/user/user.entity.ts`: the
`User` entity with its static constants `EMAIL_CONFIRMATION_TIMEOUT_SECONDS`
and `SALT_ROUNDS`, the fields, and the methods `canLogIn`, `resetPassword`
and `isRightPassword`.  Timestamps (`Date` values) are embedded as `Int`
epoch seconds; nullable columns become `Option`; the ambient clock
(`new Date()`) and the salt generated inside `bcrypt.hash` become explicit
parameters.  The email-confirmation transition and the registration phone
normalization are described by the specification but their code is not in
the repository sources, so they are modelled from the specification (each
such definition says so in its doc comment).
-/

/-- Model of a digest produced by the npm `bcrypt` library.  A real digest
is an opaque string encoding the cost, the random salt and the key derived
from the plaintext; `bcrypt.compare` re-derives the key from the candidate
using the cost and salt stored in the digest and checks equality.  We model
the digest as the triple it encodes, idealizing the key derivation as
collision-free (the standard assumption about bcrypt). -/
structure BcryptDigest where
  rounds : Nat
  salt : Nat
  plaintext : String
deriving Repr, DecidableEq

/-- Model of `bcrypt.hash(pw, rounds)`: the library draws a random salt and
returns a digest of the plaintext under that salt and cost.  The salt is an
explicit parameter here. -/
def bcrypt.hash (pw : String) (rounds : Nat) (salt : Nat) : BcryptDigest :=
  { rounds := rounds, salt := salt, plaintext := pw }

/-- Model of `bcrypt.compare(data, hash)` from the npm bcrypt library.  When
the hash argument is `null` the library rejects the promise with the error
`data and hash arguments required` (so an `await` of it throws); otherwise
it re-hashes the candidate with the cost and salt of the stored digest and
returns whether the result matches. -/
def bcrypt.compare (candidate : String) (hash : Option BcryptDigest) :
    Except String Bool :=
  match hash with
  | none => Except.error "data and hash arguments required"
  | some d => Except.ok (d == bcrypt.hash candidate d.rounds d.salt)

/-- The `User` entity of `src/backend/src/user/user.entity.ts`.  Field order
and nullability follow the entity: nullable columns are `Option`,
timestamptz columns are `Int` epoch seconds.  `passwordHash` holds a bcrypt
digest (`null` for accounts created from OAuth sources).  `phoneNumber` is
modelled from the spec: the exercise adds this nullable column by migration;
it is not yet declared in the entity source. -/
structure User where
  id : Nat
  createdAt : Int
  updatedAt : Int
  publicId : String
  displayName : String
  confirmedEmail : Option String
  pendingEmail : String
  emailConfirmationToken : Option String
  emailConfirmationRequestedAt : Int
  emailConfirmationCompletedAt : Option Int
  securityOperationPerformedAt : Option Int
  passwordHash : Option BcryptDigest
  phoneNumber : Option String
deriving Repr, DecidableEq

/-- `static EMAIL_CONFIRMATION_TIMEOUT_SECONDS = 3*24*3600` from the entity. -/
def User.EMAIL_CONFIRMATION_TIMEOUT_SECONDS : Int := 3 * 24 * 3600

/-- `static SALT_ROUNDS = 10` from the entity. -/
def User.SALT_ROUNDS : Nat := 10

/-- `canLogIn(): boolean { return this.emailConfirmationCompletedAt != null; }` -/
def User.canLogIn (u : User) : Bool :=
  u.emailConfirmationCompletedAt.isSome

/-- `resetPassword(newPassword)`: hashes the new password with
`bcrypt.hash(newPassword, User.SALT_ROUNDS)`, stores the digest in
`passwordHash` and sets `securityOperationPerformedAt = new Date()`.  The
salt drawn by bcrypt and the clock reading are explicit parameters.  The
method performs no validation of `newPassword`. -/
def User.resetPassword (u : User) (newPassword : String) (salt : Nat)
    (now : Int) : User :=
  { u with
    passwordHash := some (bcrypt.hash newPassword User.SALT_ROUNDS salt)
    securityOperationPerformedAt := some now }

/-- `isRightPassword(password)`: `await bcrypt.compare(password,
this.passwordHash)` and return the match.  A rejection of the bcrypt
promise propagates, which the `Except` error tracks. -/
def User.isRightPassword (u : User) (password : String) : Except String Bool :=
  bcrypt.compare password u.passwordHash

/-- The single confirmation failure of the spec. -/
inductive ConfirmError where
  | InvalidOrExpiredToken
deriving Repr, DecidableEq

/-- Modelled from the spec: the email-confirmation transition is not
implemented in the repository sources (the entity only declares the fields
`emailConfirmationToken`, `emailConfirmationRequestedAt`,
`emailConfirmationCompletedAt`).  Per the spec it succeeds only if the
supplied token matches `emailConfirmationToken` exactly and
`now - emailConfirmationRequestedAt <= EMAIL_CONFIRMATION_TIMEOUT_SECONDS`;
on success it sets `confirmedEmail = pendingEmail`, clears the token and
sets `emailConfirmationCompletedAt = now`; on token mismatch or expiry it
fails with the single error `InvalidOrExpiredToken` without mutating state.
The result pairs the record after the call with the error, if any. -/
def User.confirmEmailRun (u : User) (token : String) (now : Int) :
    User × Option ConfirmError :=
  if u.emailConfirmationToken = some token ∧
      now - u.emailConfirmationRequestedAt ≤
        User.EMAIL_CONFIRMATION_TIMEOUT_SECONDS then
    ({ u with
        confirmedEmail := some u.pendingEmail
        emailConfirmationToken := none
        emailConfirmationCompletedAt := some now }, none)
  else
    (u, some ConfirmError.InvalidOrExpiredToken)

/-- The single phone-number field error of the spec. -/
inductive PhoneError where
  | InvalidPhoneNumber
deriving Repr, DecidableEq

/-- Modelled from the spec: phone normalization is part of the registration
validator the exercise asks the candidate to write; its code is not in the
repository sources.  Per the spec: scan the raw string, keep the first `+`
only if it is the first character, drop all spaces, dashes, parentheses and
any other non-digit characters, and concatenate the remaining digits after
the optional leading `+`. -/
def normalizePhoneChars (cs : List Char) : List Char :=
  (if cs.head? = some '+' then ['+'] else []) ++ cs.filter Char.isDigit

/-- The normalization of the spec on strings: `normalizePhoneChars` applied
to the characters of the raw input. -/
def normalizePhoneNumber (raw : String) : String :=
  String.mk (normalizePhoneChars raw.data)

/-- The part of a character list after the optional leading `+`. -/
def phoneBodyChars (cs : List Char) : List Char :=
  if cs.head? = some '+' then cs.tail else cs

/-- The part of a phone string after the optional leading `+`. -/
def phoneBody (s : String) : List Char :=
  phoneBodyChars s.data

/-- The canonical normalized phone format of the spec: an optional leading
`+` followed by 7 to 15 digits and nothing else. -/
def isNormalizedPhone (s : String) : Bool :=
  (phoneBody s).all Char.isDigit &&
    decide (7 ≤ (phoneBody s).length) && decide ((phoneBody s).length ≤ 15)

/-- Modelled from the spec: the validator normalizes the raw input and, if
the result does not match the target pattern, emits the field error
`InvalidPhoneNumber` and persists no partially normalized value; otherwise
the fully canonical value is the result. -/
def validatePhoneNumber (raw : String) : Except PhoneError String :=
  if isNormalizedPhone (normalizePhoneNumber raw) then
    Except.ok (normalizePhoneNumber raw)
  else Except.error PhoneError.InvalidPhoneNumber

/-- The number of digit characters in a raw input string. -/
def digitCount (s : String) : Nat :=
  (s.data.filter Char.isDigit).length

/-- A concrete record with a stored password hash, used to instantiate the
theorems below. -/
def sampleUser : User :=
  { id := 1
    createdAt := 0
    updatedAt := 0
    publicId := "pub-1"
    displayName := "ImperatorFuriosa"
    confirmedEmail := none
    pendingEmail := "admin@example.com"
    emailConfirmationToken := some "tok0123456789abc"
    emailConfirmationRequestedAt := 0
    emailConfirmationCompletedAt := none
    securityOperationPerformedAt := none
    passwordHash := some (bcrypt.hash "oldpassword" User.SALT_ROUNDS 0)
    phoneNumber := none }

/-- A concrete record whose `passwordHash` is absent, as for an account
created from an OAuth source. -/
def sampleUserNoHash : User :=
  { sampleUser with passwordHash := none }

/-- C10: the email-confirmation expiry window
`EMAIL_CONFIRMATION_TIMEOUT_SECONDS` equals `3*24*3600 = 259200` seconds,
exactly three days, a fixed class-level constant. -/
theorem email_confirmation_timeout_value :
    User.EMAIL_CONFIRMATION_TIMEOUT_SECONDS = 3 * 24 * 3600 ∧
      User.EMAIL_CONFIRMATION_TIMEOUT_SECONDS = 259200 := by
  constructor <;> rfl

/-- C3: `canLogIn()` returns true if and only if
`emailConfirmationCompletedAt` is non-null.  The embedded `canLogIn` is a
pure function of the record, so it mutates no field. -/
theorem canLogIn_iff_confirmed (u : User) :
    u.canLogIn = true ↔ u.emailConfirmationCompletedAt ≠ none := by
  unfold User.canLogIn
  cases u.emailConfirmationCompletedAt <;> simp

/-- C9: `resetPassword` changes only `passwordHash` and
`securityOperationPerformedAt`; every other field of the record is
unchanged. -/
theorem resetPassword_frame (u : User) (pw : String) (salt : Nat) (now : Int) :
    (u.resetPassword pw salt now).id = u.id ∧
      (u.resetPassword pw salt now).publicId = u.publicId ∧
      (u.resetPassword pw salt now).displayName = u.displayName ∧
      (u.resetPassword pw salt now).pendingEmail = u.pendingEmail ∧
      (u.resetPassword pw salt now).confirmedEmail = u.confirmedEmail ∧
      (u.resetPassword pw salt now).emailConfirmationToken =
        u.emailConfirmationToken ∧
      (u.resetPassword pw salt now).emailConfirmationRequestedAt =
        u.emailConfirmationRequestedAt ∧
      (u.resetPassword pw salt now).emailConfirmationCompletedAt =
        u.emailConfirmationCompletedAt ∧
      (u.resetPassword pw salt now).phoneNumber = u.phoneNumber ∧
      (u.resetPassword pw salt now).createdAt = u.createdAt ∧
      (u.resetPassword pw salt now).updatedAt = u.updatedAt := by
  refine ⟨rfl, rfl, rfl, rfl, rfl, rfl, rfl, rfl, rfl, rfl, rfl⟩

/-- C4: after `resetPassword(newPassword)` with a valid password (at least
6 characters), `passwordHash` is the salted bcrypt hash of `newPassword`
at cost `SALT_ROUNDS` and `securityOperationPerformedAt` is the clock
reading at the call. -/
theorem resetPassword_sets_hash_and_timestamp (u : User) (pw : String)
    (salt : Nat) (now : Int) (h : 6 ≤ pw.length) :
    (u.resetPassword pw salt now).passwordHash =
        some (bcrypt.hash pw User.SALT_ROUNDS salt) ∧
      (u.resetPassword pw salt now).securityOperationPerformedAt = some now :=
  ⟨rfl, rfl⟩

theorem resetPassword_sets_hash_and_timestamp_witness :
    (sampleUser.resetPassword "secret" 5 42).passwordHash =
        some (bcrypt.hash "secret" User.SALT_ROUNDS 5) ∧
      (sampleUser.resetPassword "secret" 5 42).securityOperationPerformedAt =
        some 42 :=
  resetPassword_sets_hash_and_timestamp sampleUser "secret" 5 42 (by decide)

/-- C1 counterexample: the claim says a password shorter than 6 characters
is rejected with `WeakPassword` and `passwordHash` is not replaced; the
entity method performs no validation, and at the 3-character password
`abc` it does replace `passwordHash` (and touches
`securityOperationPerformedAt`). -/
theorem resetPassword_short_password_counterexample :
    "abc".length < 6 ∧
      (sampleUser.resetPassword "abc" 1 100).passwordHash ≠
        sampleUser.passwordHash ∧
      (sampleUser.resetPassword "abc" 1 100).securityOperationPerformedAt ≠
        sampleUser.securityOperationPerformedAt := by
  refine ⟨by decide, ?_, ?_⟩ <;> decide

/-- C1 amended: `resetPassword` performs no password-policy validation: a
`newPassword` shorter than 6 characters also succeeds, replacing
`passwordHash` with the salted hash of the new password and setting
`securityOperationPerformedAt` to the clock reading (passwords of length
at least 6 succeed likewise). -/
theorem resetPassword_short_password_succeeds (u : User) (pw : String)
    (salt : Nat) (now : Int) (h : pw.length < 6) :
    (u.resetPassword pw salt now).passwordHash =
        some (bcrypt.hash pw User.SALT_ROUNDS salt) ∧
      (u.resetPassword pw salt now).securityOperationPerformedAt = some now :=
  ⟨rfl, rfl⟩

theorem resetPassword_short_password_succeeds_witness :
    (sampleUser.resetPassword "abc12" 3 77).passwordHash =
        some (bcrypt.hash "abc12" User.SALT_ROUNDS 3) ∧
      (sampleUser.resetPassword "abc12" 3 77).securityOperationPerformedAt =
        some 77 :=
  resetPassword_short_password_succeeds sampleUser "abc12" 3 77 (by decide)

/-- C2 counterexample: the claim says `isRightPassword` returns false and
never throws when `passwordHash` is absent; on a record with no hash the
embedded method propagates the bcrypt rejection instead of returning
false. -/
theorem isRightPassword_absent_hash_counterexample :
    sampleUserNoHash.passwordHash = none ∧
      sampleUserNoHash.isRightPassword "whatever" ≠ Except.ok false ∧
      sampleUserNoHash.isRightPassword "whatever" =
        Except.error "data and hash arguments required" := by
  refine ⟨rfl, ?_, rfl⟩
  intro hc
  exact Except.noConfusion hc

/-- C2 amended: when `passwordHash` is absent, `isRightPassword` throws for
every candidate: the bcrypt compare promise rejects with
`data and hash arguments required` and the `await` propagates the
rejection. -/
theorem isRightPassword_absent_hash_throws (u : User) (pw : String)
    (h : u.passwordHash = none) :
    u.isRightPassword pw = Except.error "data and hash arguments required" := by
  unfold User.isRightPassword
  rw [h]
  rfl

theorem isRightPassword_absent_hash_throws_witness :
    sampleUserNoHash.isRightPassword "candidate" =
      Except.error "data and hash arguments required" :=
  isRightPassword_absent_hash_throws sampleUserNoHash "candidate" rfl

/-- C5: after `resetPassword(new)`, `isRightPassword(new)` returns true and
`isRightPassword(old)` returns false for every old password distinct from
the new one. -/
theorem resetPassword_isRightPassword_roundtrip (u : User)
    (oldPw newPw : String) (salt : Nat) (now : Int) (h : oldPw ≠ newPw) :
    (u.resetPassword newPw salt now).isRightPassword newPw = Except.ok true ∧
      (u.resetPassword newPw salt now).isRightPassword oldPw =
        Except.ok false := by
  constructor <;>
    simp [User.resetPassword, User.isRightPassword, bcrypt.compare,
      bcrypt.hash, Ne.symm h]

theorem resetPassword_isRightPassword_roundtrip_witness :
    (sampleUser.resetPassword "newpass" 2 50).isRightPassword "newpass" =
        Except.ok true ∧
      (sampleUser.resetPassword "newpass" 2 50).isRightPassword
          "oldpassword" = Except.ok false :=
  resetPassword_isRightPassword_roundtrip sampleUser "oldpassword" "newpass"
    2 50 (by decide)

/-- C6: the email-confirmation transition succeeds if and only if the
supplied token equals `emailConfirmationToken` exactly and
`now - emailConfirmationRequestedAt <= EMAIL_CONFIRMATION_TIMEOUT_SECONDS`;
on success it sets `confirmedEmail = pendingEmail`, clears the token and
sets `emailConfirmationCompletedAt = now`; on mismatch or expiry it returns
the single error `InvalidOrExpiredToken` and leaves every field of the
record unchanged. -/
theorem confirmEmail_transition_spec (u : User) (token : String) (now : Int) :
    ((u.confirmEmailRun token now).2 = none ↔
        u.emailConfirmationToken = some token ∧
          now - u.emailConfirmationRequestedAt ≤
            User.EMAIL_CONFIRMATION_TIMEOUT_SECONDS) ∧
      (u.emailConfirmationToken = some token ∧
          now - u.emailConfirmationRequestedAt ≤
            User.EMAIL_CONFIRMATION_TIMEOUT_SECONDS →
        u.confirmEmailRun token now =
          ({ u with
              confirmedEmail := some u.pendingEmail
              emailConfirmationToken := none
              emailConfirmationCompletedAt := some now }, none)) ∧
      (¬(u.emailConfirmationToken = some token ∧
          now - u.emailConfirmationRequestedAt ≤
            User.EMAIL_CONFIRMATION_TIMEOUT_SECONDS) →
        u.confirmEmailRun token now =
          (u, some ConfirmError.InvalidOrExpiredToken)) := by
  by_cases h : u.emailConfirmationToken = some token ∧
      now - u.emailConfirmationRequestedAt ≤
        User.EMAIL_CONFIRMATION_TIMEOUT_SECONDS
  · unfold User.confirmEmailRun
    rw [if_pos h]
    exact ⟨⟨fun _ => h, fun _ => rfl⟩, fun _ => rfl, fun hn => absurd h hn⟩
  · unfold User.confirmEmailRun
    rw [if_neg h]
    refine ⟨⟨fun h2 => absurd h2 (by simp), fun hc => absurd hc h⟩,
      fun hc => absurd hc h, fun _ => rfl⟩

/-- The data of a constructed string are the constructing characters. -/
theorem data_mk (l : List Char) : (String.mk l).data = l := rfl

/-- A list of digit characters never starts with `+`. -/
theorem filter_digits_head_ne_plus (l : List Char) :
    (l.filter Char.isDigit).head? ≠ some '+' := by
  intro hf
  cases hl : l.filter Char.isDigit with
  | nil => rw [hl] at hf; cases hf
  | cons c t =>
    rw [hl] at hf
    simp at hf
    have hmem : c ∈ l.filter Char.isDigit := by
      rw [hl]; exact List.mem_cons_self c t
    have hdig : Char.isDigit c = true := (List.mem_filter.mp hmem).2
    rw [hf] at hdig
    exact absurd hdig (by decide)

/-- The body of a normalized phone number is exactly the digits of the raw
input. -/
theorem phoneBodyChars_normalize (cs : List Char) :
    phoneBodyChars (normalizePhoneChars cs) = cs.filter Char.isDigit := by
  unfold normalizePhoneChars phoneBodyChars
  by_cases hp : cs.head? = some '+'
  · rw [if_pos hp, List.singleton_append, List.head?_cons, if_pos rfl,
      List.tail_cons]
  · rw [if_neg hp, List.nil_append, if_neg (filter_digits_head_ne_plus cs)]

/-- String form of `phoneBodyChars_normalize`. -/
theorem phoneBody_normalizePhoneNumber (raw : String) :
    phoneBody (normalizePhoneNumber raw) = raw.data.filter Char.isDigit :=
  phoneBodyChars_normalize raw.data

/-- A string in the canonical phone format has between 7 and 15 digits
after the optional `+`. -/
theorem isNormalizedPhone_length_bounds (s : String)
    (h : isNormalizedPhone s = true) :
    7 ≤ (phoneBody s).length ∧ (phoneBody s).length ≤ 15 := by
  have h' := h
  simp only [isNormalizedPhone, Bool.and_eq_true, decide_eq_true_eq] at h'
  exact ⟨h'.1.2, h'.2⟩

/-- A string in the canonical phone format holds only digits after the
optional `+`. -/
theorem isNormalizedPhone_all_digits (s : String)
    (h : isNormalizedPhone s = true) :
    (phoneBody s).all Char.isDigit = true := by
  have h' := h
  simp only [isNormalizedPhone, Bool.and_eq_true, decide_eq_true_eq] at h'
  exact h'.1.1

/-- C7: for every raw phone-number input, the validator either produces a
string in the canonical format (optional leading `+` then 7 to 15 digits
and nothing else) or emits the field error `InvalidPhoneNumber`, in which
case no normalized value is produced at all; and an input whose digit count
falls outside 7 to 15 is always rejected. -/
theorem validatePhoneNumber_sound (raw : String) :
    (∀ nrm, validatePhoneNumber raw = Except.ok nrm →
        isNormalizedPhone nrm = true) ∧
      (∀ e, validatePhoneNumber raw = Except.error e →
        e = PhoneError.InvalidPhoneNumber) ∧
      (digitCount raw < 7 ∨ 15 < digitCount raw →
        validatePhoneNumber raw = Except.error PhoneError.InvalidPhoneNumber) := by
  unfold validatePhoneNumber
  by_cases hv : isNormalizedPhone (normalizePhoneNumber raw) = true
  · refine ⟨?_, ?_, ?_⟩
    · intro nrm hok
      simp only [hv, if_pos] at hok
      cases hok
      exact hv
    · intro e he
      simp [hv] at he
    · intro hrange
      exfalso
      have hb := isNormalizedPhone_length_bounds _ hv
      rw [phoneBody_normalizePhoneNumber] at hb
      unfold digitCount at hrange
      omega
  · refine ⟨?_, ?_, ?_⟩
    · intro nrm hok
      simp [hv] at hok
    · intro e he
      cases e
      rfl
    · intro hrange
      simp [hv]

/-- C8: normalization is idempotent: applied to a string already in the
canonical normalized phone format it returns the same string. -/
theorem normalizePhoneNumber_idempotent (s : String)
    (h : isNormalizedPhone s = true) :
    normalizePhoneNumber s = s := by
  have hall := isNormalizedPhone_all_digits s h
  obtain ⟨cs⟩ := s
  show String.mk (normalizePhoneChars cs) = String.mk cs
  refine congrArg String.mk ?_
  simp only [phoneBody, data_mk] at hall
  cases cs with
  | nil => rfl
  | cons c t =>
    unfold normalizePhoneChars
    unfold phoneBodyChars at hall
    by_cases hc : c = '+'
    · subst hc
      rw [List.head?_cons, if_pos rfl, List.tail_cons] at hall
      rw [List.head?_cons, if_pos rfl, List.singleton_append,
        List.filter_cons_of_neg (by decide),
        List.filter_eq_self.mpr (List.all_eq_true.mp hall)]
    · have hne : ¬ ((c :: t : List Char).head? = some '+') := by
        simp [hc]
      rw [if_neg hne] at hall
      rw [if_neg hne, List.nil_append,
        List.filter_eq_self.mpr (List.all_eq_true.mp hall)]

theorem normalizePhoneNumber_idempotent_witness :
    normalizePhoneNumber "+15551231234" = "+15551231234" :=
  normalizePhoneNumber_idempotent "+15551231234" (by decide)
